import Mathlib

/-!
Verification development for a GPS photo geotagging tool (`main.py`).

The program correlates photo capture timestamps against a GPX trace and
writes interpolated GPS coordinates into photo metadata.  This file gives a
shallow embedding of its core data model and operations:

* `GPSTrackPoint` / trace store — timestamps and coordinates are modelled as
  rationals (`ℚ`); timestamps are absolute seconds, so Python
  `(a - b).total_seconds()` becomes plain subtraction.
* `calculate_average_interval` — `GPXParser.calculate_average_interval`.
* `find_gps_for_photo` — `GPSMatcher.find_gps_for_photo`, with the linear
  before/after scan embedded as `findBeforeAfter`.
* photo metadata reads/writes (`has_gps_data`, the lazy caches, the two
  write backends) with the external tag stores modelled as explicit values.
* `find_photos` — photo discovery, with a directory listing modelled as the
  list of file names it contains.
* `process_photos` / `process_single_photo` — the batch pipeline, with the
  per-photo metadata reads abstracted to their results.
-/

/-- A GPS trackpoint: timestamp (absolute seconds), latitude, longitude and
optional elevation, mirroring class `GPSTrackPoint` in `main.py`. -/
structure GPSTrackPoint where
  timestamp : ℚ
  latitude : ℚ
  longitude : ℚ
  elevation : Option ℚ
deriving DecidableEq, Repr

/-- The loop body of `GPXParser.calculate_average_interval`: successive
deltas between consecutive trackpoints, keeping only the strictly positive
ones.  `prev` is the previously visited point. -/
def positiveIntervals : GPSTrackPoint → List GPSTrackPoint → List ℚ
  | _, [] => []
  | prev, p :: rest =>
      let delta := p.timestamp - prev.timestamp
      if delta > 0 then delta :: positiveIntervals p rest
      else positiveIntervals p rest

/-- `GPXParser.calculate_average_interval`: 300 s default for fewer than two
points or when no positive delta remains, otherwise the arithmetic mean of
the positive successive deltas. -/
def calculate_average_interval (tps : List GPSTrackPoint) : ℚ :=
  if tps.length < 2 then 300
  else
    let intervals :=
      match tps with
      | [] => []
      | p :: rest => positiveIntervals p rest
    if intervals = [] then 300
    else intervals.sum / intervals.length

/-- Spec-side formulation of the positive successive deltas: zip the store
with its own tail, take the timestamp differences, keep the positive ones. -/
def successiveDeltasSpec (tps : List GPSTrackPoint) : List ℚ :=
  ((tps.zip tps.tail).map (fun ab => ab.2.timestamp - ab.1.timestamp)).filter
    (fun d => decide (0 < d))

/-- The scanning loop of `GPSMatcher.find_gps_for_photo` (lines 354–359):
walk the trackpoints; every point with `timestamp ≤ photoTime` becomes the
new `before`; the first point with a larger timestamp becomes `after` and
stops the loop.  `b` is the `before` accumulator (initially `none`). -/
def findBeforeAfter : List GPSTrackPoint → ℚ → Option GPSTrackPoint →
    Option GPSTrackPoint × Option GPSTrackPoint
  | [], _, b => (b, none)
  | p :: rest, t, b =>
      if p.timestamp ≤ t then findBeforeAfter rest t (some p)
      else (b, some p)

/-- `GPSMatcher.find_gps_for_photo`: returns `some (latitude, longitude,
elevation?)` or `none` when no match is accepted.  Mirrors lines 342–399 of
`main.py`: empty store → `none`; no `before` → clamp to the first point when
forced or within tolerance; no `after` → clamp to the last point likewise;
otherwise refuse when not forced and both gaps exceed `maxTimeDiff`, return
`before` verbatim on a zero-length interval, else interpolate linearly
(elevation only when both endpoints carry one). -/
def find_gps_for_photo (tps : List GPSTrackPoint) (maxTimeDiff : ℚ)
    (forceInterpolate : Bool) (photoTime : ℚ) : Option (ℚ × ℚ × Option ℚ) :=
  if h : tps = [] then none
  else
    match findBeforeAfter tps photoTime none with
    | (none, _) =>
        -- photo is before the first trackpoint
        let first := tps.head h
        let timeDiff := first.timestamp - photoTime
        if forceInterpolate = true ∨ timeDiff ≤ maxTimeDiff then
          some (first.latitude, first.longitude, first.elevation)
        else none
    | (some _, none) =>
        -- photo is after the last trackpoint
        let last := tps.getLast h
        let timeDiff := photoTime - last.timestamp
        if forceInterpolate = true ∨ timeDiff ≤ maxTimeDiff then
          some (last.latitude, last.longitude, last.elevation)
        else none
    | (some before, some after) =>
        let gapBefore := photoTime - before.timestamp
        let gapAfter := after.timestamp - photoTime
        if forceInterpolate = false ∧ maxTimeDiff < min gapBefore gapAfter then
          none
        else
          let total := after.timestamp - before.timestamp
          if total = 0 then
            some (before.latitude, before.longitude, before.elevation)
          else
            let frac := gapBefore / total
            let lat := before.latitude + (after.latitude - before.latitude) * frac
            let lon := before.longitude + (after.longitude - before.longitude) * frac
            let elev :=
              match before.elevation, after.elevation with
              | some e1, some e2 => some (e1 + (e2 - e1) * frac)
              | _, _ => none
            some (lat, lon, elev)

/-- Sortedness invariant of the trace store (`GPXParser.parse` sorts by
timestamp before the store is used). -/
def TraceSorted (tps : List GPSTrackPoint) : Prop :=
  List.Pairwise (fun a b => a.timestamp ≤ b.timestamp) tps

/-- The GPS tag fields `has_gps_data` reads from an ExifTool JSON record for
a non-JPEG (RAW-path) file: `EXIF:GPSLatitude`, `Composite:GPSLatitude`,
`EXIF:GPSLongitude`, `Composite:GPSLongitude` (numeric values, `-n`). -/
structure RawMeta where
  exifGPSLatitude : Option ℚ
  compositeGPSLatitude : Option ℚ
  exifGPSLongitude : Option ℚ
  compositeGPSLongitude : Option ℚ
deriving DecidableEq, Repr

/-- A loaded piexif dictionary, reduced to the part the embedded claims
read: the set of tag ids present in its GPS IFD. -/
structure JpegMeta where
  gpsTags : List Nat
deriving DecidableEq, Repr

/-- piexif.GPSIFD.GPSLatitude -/
def GPSLatitudeTag : Nat := 2
/-- piexif.GPSIFD.GPSLongitude -/
def GPSLongitudeTag : Nat := 4

/-- The metadata a photo's backend yields, by backend kind.  `raw none`
models ExifTool being unavailable or failing (`_get_raw_info` returning
`None`); `jpeg none` models `piexif.load` raising (caught by the caller). -/
inductive PhotoMeta
  | raw (info : Option RawMeta)
  | jpeg (load : Option JpegMeta)
deriving DecidableEq, Repr

/-- Backend kind of a photo record (`PhotoProcessor.is_raw`, fixed at
construction from the file extension). -/
def PhotoMeta.isRaw : PhotoMeta → Bool
  | .raw _ => true
  | .jpeg _ => false

/-- Python `a or b` on optional floats: a present value of `0` is falsy and
falls through to `b`, as in
`info.get("EXIF:GPSLatitude") or info.get("Composite:GPSLatitude")`. -/
def pyOr (a b : Option ℚ) : Option ℚ :=
  match a with
  | some x => if x = 0 then b else some x
  | none => b

/-- `PhotoProcessor.has_gps_data` (lines 187–202): RAW path requires both a
latitude and a longitude value after the `or`-coalescing of the EXIF and
Composite tags; JPEG path only tests membership of the GPSLatitude tag in
the GPS IFD; any read failure yields `false`. -/
def has_gps_data : PhotoMeta → Bool
  | .raw none => false
  | .raw (some i) =>
      let lat := pyOr i.exifGPSLatitude i.compositeGPSLatitude
      let lon := pyOr i.exifGPSLongitude i.compositeGPSLongitude
      lat.isSome && lon.isSome
  | .jpeg none => false
  | .jpeg (some d) => d.gpsTags.contains GPSLatitudeTag

/-- The claim's reading of `has_gps_data`, following the spec's words: a
GPS-latitude tag present, and for the embedded-codec (JPEG) backend also a
GPS-longitude tag; read errors yield false. -/
def hasGpsClaimedSpec : PhotoMeta → Prop
  | .raw none => False
  | .raw (some i) =>
      i.exifGPSLatitude.isSome = true ∨ i.compositeGPSLatitude.isSome = true
  | .jpeg none => False
  | .jpeg (some d) => GPSLatitudeTag ∈ d.gpsTags ∧ GPSLongitudeTag ∈ d.gpsTags

/-- Amended C4 criterion: read errors give `false`; the embedded-codec
(JPEG) backend requires only the GPS-latitude tag; the external-tool (RAW)
backend requires both a latitude and a longitude value to be available
after Python's or-coalescing of the EXIF and Composite tags (a tag whose
value is `0` is falsy and falls through). -/
def hasGpsAmendedSpec : PhotoMeta → Prop
  | .raw none => False
  | .raw (some i) =>
      (∃ v, pyOr i.exifGPSLatitude i.compositeGPSLatitude = some v) ∧
      (∃ w, pyOr i.exifGPSLongitude i.compositeGPSLongitude = some w)
  | .jpeg none => False
  | .jpeg (some d) => GPSLatitudeTag ∈ d.gpsTags

/-- The lazy metadata caches of one `PhotoProcessor` instance
(`_raw_info`, `_jpeg_exif_dict`); `none` = not (successfully) loaded yet. -/
structure ProcCaches where
  raw_info : Option RawMeta
  jpeg_exif : Option JpegMeta
deriving DecidableEq, Repr

/-- `PhotoProcessor._get_raw_info`: serve the cache when populated,
otherwise run ExifTool (its result modelled by `world`) and cache it. -/
def get_raw_info (world : Option RawMeta) (st : ProcCaches) :
    Option RawMeta × ProcCaches :=
  match st.raw_info with
  | some i => (some i, st)
  | none => (world, { st with raw_info := world })

/-- `PhotoProcessor._get_jpeg_exif_dict`: serve the cache when populated,
otherwise load from the file (modelled by `file`) and cache it. -/
def get_jpeg_exif_dict (file : JpegMeta) (st : ProcCaches) :
    JpegMeta × ProcCaches :=
  match st.jpeg_exif with
  | some d => (d, st)
  | none => (file, { st with jpeg_exif := some file })

/-- `PhotoProcessor._write_gps_to_jpg` (lines 221–247), restricted to its
effect on the processor's cached state: it loads the EXIF dict through the
cache, writes the file (file contents are outside this state), and then
sets `_jpeg_exif_dict = None`, invalidating the cache. -/
def write_gps_to_jpg (file : JpegMeta) (st : ProcCaches) : ProcCaches :=
  let loaded := get_jpeg_exif_dict file st
  { loaded.2 with jpeg_exif := none }

/-- `PhotoProcessor._write_gps_to_raw` (lines 249–271), restricted to its
effect on the processor's cached state: it invokes ExifTool
(`exiftoolOk` = exit status 0) and raises on a non-zero exit; it never
touches `_raw_info`. -/
def write_gps_to_raw (exiftoolOk : Bool) (st : ProcCaches) :
    Except String ProcCaches :=
  if exiftoolOk then .ok st else .error "ExifTool error while writing GPS"

/-- Result of one `write_gps_data` call, as observable by its caller. -/
inductive WriteOutcome
  | written
  | dryRunSkipped
  | failed
deriving DecidableEq, Repr

/-- The backend write attempt inside `write_gps_data`: the RAW path raises
on a non-zero ExifTool exit; the JPEG path's piexif write is modelled as
succeeding. -/
def attempt_write (isRaw backendOk : Bool) : Except String Unit :=
  if isRaw then
    (if backendOk then .ok () else .error "ExifTool error")
  else .ok ()

/-- `PhotoProcessor.write_gps_data` (lines 204–219): dry-run returns before
any I/O; otherwise the backend write runs under `try`, and any exception is
caught, logged and swallowed — the function always returns normally. -/
def write_gps_data (isRaw backendOk dryRun : Bool) : WriteOutcome :=
  if dryRun then .dryRunSkipped
  else
    match attempt_write isRaw backendOk with
    | .ok _ => .written
    | .error _ => .failed

/-- Lowercase a file name character-wise (`str.lower()`). -/
def strLower (s : String) : String := String.mk (s.data.map Char.toLower)

/-- Uppercase a file name character-wise (`str.upper()`, used for
`ext.upper()` in `find_photos`). -/
def strUpper (s : String) : String := String.mk (s.data.map Char.toUpper)

/-- `f` ends with `pat` — glob pattern `*{pat}` matched against the file
name `f` (the `*` may also match the empty string). -/
def strEndsWith (f pat : String) : Bool := pat.data.isSuffixOf f.data

/-- `PhotoProcessor.SUPPORTED_EXTENSIONS` (lines 107–116). -/
def SUPPORTED_EXTENSIONS : List String :=
  [".jpg", ".jpeg",
   ".arw", ".nef", ".cr2", ".dng", ".orf", ".rw2", ".raf", ".raw",
   ".avif", ".heic", ".heif", ".webp",
   ".tiff", ".tif", ".png"]

/-- One `directory.glob(f'*{pat}')` call: the files of the directory listing
whose name ends with `pat`.  A directory listing is modelled as the list of
file names it contains (for `rglob`, the listing of the whole tree). -/
def globMatches (files : List String) (pat : String) : List String :=
  files.filter (fun f => strEndsWith f pat)

/-- The glob patterns `find_photos` issues: for each supported extension,
the extension itself and then its uppercased form. -/
def variantPatterns : List String → List String
  | [] => []
  | e :: rest => e :: strUpper e :: variantPatterns rest

/-- The accumulation loop of `find_photos`: concatenate the glob results of
all patterns in order. -/
def globAll (files : List String) : List String → List String
  | [] => []
  | pat :: rest => globMatches files pat ++ globAll files rest

/-- Lexicographic comparison of character lists by code point, the order in
which Python's `sorted` ranks the path strings. -/
def charListLe : List Char → List Char → Bool
  | [], _ => true
  | _ :: _, [] => false
  | a :: as, b :: bs =>
      if a.toNat < b.toNat then true
      else if b.toNat < a.toNat then false
      else charListLe as bs

/-- Lexicographic string comparison (Python `sorted` on path strings). -/
def strLeB (a b : String) : Bool := charListLe a.data b.data

/-- `find_photos` (lines 402–415): glob every supported extension in
lowercase and uppercase form against the directory listing, then sort. -/
def find_photos (files : List String) : List String :=
  List.insertionSort (fun a b => strLeB a b = true)
    (globAll files (variantPatterns SUPPORTED_EXTENSIONS))

/-- The claim's selection criterion: the file's name, lowercased, ends with
one of the supported extensions (i.e. the extension matches the allow-list
in some letter-case combination). -/
def matchesAllowListCI (f : String) : Bool :=
  SUPPORTED_EXTENSIONS.any (fun e => strEndsWith (strLower f) e)

/-- One discovered photo, as seen by `process_photos`' worker: its path and
the results of the two metadata reads (`has_gps_data` input metadata, and
the already-extracted capture timestamp), plus whether the underlying
metadata write would succeed. -/
structure PhotoRecord where
  path : String
  meta : PhotoMeta
  photoTime : Option ℚ
  writeOk : Bool
deriving DecidableEq, Repr

/-- The per-photo result dictionary built by
`process_photos._process_single_photo` (lines 470–513). -/
structure PhotoResult where
  updated : Nat
  skipped_has_gps : Nat
  skipped_no_timestamp : Nat
  skipped_no_match : Nat
  in_range_no_match : Option (String × ℚ)
deriving DecidableEq, Repr

/-- `process_photos._process_single_photo`: skip when GPS is present and
overwriting is off; skip when no timestamp; query the matcher; on no match
record the in/out-of-range diagnostic (the pipeline only calls this with a
nonempty store, so the `headD`/`getLastD` defaults are never used); on a
match call `write_gps_data` (whose outcome is discarded) and count the
photo as updated. -/
def process_single_photo (tps : List GPSTrackPoint) (maxTimeDiff : ℚ)
    (forceInterpolate overwriteGps dryRun : Bool) (photo : PhotoRecord) :
    PhotoResult :=
  let dflt : GPSTrackPoint := ⟨0, 0, 0, none⟩
  if overwriteGps = false ∧ has_gps_data photo.meta = true then
    ⟨0, 1, 0, 0, none⟩
  else
    match photo.photoTime with
    | none => ⟨0, 0, 1, 0, none⟩
    | some t =>
        match find_gps_for_photo tps maxTimeDiff forceInterpolate t with
        | none =>
            let firstTs := (tps.headD dflt).timestamp
            let lastTs := (tps.getLastD dflt).timestamp
            ⟨0, 0, 0, 1,
              if firstTs ≤ t ∧ t ≤ lastTs then some (photo.path, t) else none⟩
        | some _ =>
            let _ := write_gps_data photo.meta.isRaw photo.writeOk dryRun
            ⟨1, 0, 0, 0, none⟩

/-- The run statistics accumulator of `process_photos` (lines 460–466). -/
structure RunStats where
  total : Nat
  updated : Nat
  skipped_has_gps : Nat
  skipped_no_timestamp : Nat
  skipped_no_match : Nat
deriving DecidableEq, Repr

/-- Result of a `process_photos` run: the early returns for an empty trace
(lines 435–437) and for an empty photo list (lines 452–454), or the
aggregated statistics plus the in-range-no-match diagnostic list. -/
inductive RunResult
  | emptyTrace
  | noPhotos
  | completed (stats : RunStats) (inRangeNoMatch : List (String × ℚ))
deriving DecidableEq, Repr

/-- The tolerance used by a run (lines 440–446): the caller's explicit
value, else the adaptive `max(60, min(3 × average interval, 600))`. -/
def runTolerance (tps : List GPSTrackPoint) : Option ℚ → ℚ
  | some d => d
  | none => max 60 (min (calculate_average_interval tps * 3) 600)


/-- `process_photos` (lines 418–539), with GPX parsing and photo discovery
abstracted to their results (`tps`, `photos`): return early on an empty
trace; derive the adaptive tolerance when none is supplied
(`max(60, min(avg*3, 600))`); return early when no photos were found; else
process every photo and accumulate the counters and the diagnostic list.
The thread-pool path accumulates the same per-photo results in completion
order; the counters are order-independent, and the sequential order is used
for the diagnostic list. -/
def process_photos (tps : List GPSTrackPoint) (photos : List PhotoRecord)
    (overwriteGps dryRun forceInterpolate : Bool) (maxTimeDiffArg : Option ℚ) :
    RunResult :=
  if tps = [] then .emptyTrace
  else
    let maxTimeDiff := runTolerance tps maxTimeDiffArg
    if photos = [] then .noPhotos
    else
      let results := photos.map
        (process_single_photo tps maxTimeDiff forceInterpolate overwriteGps dryRun)
      let stats : RunStats :=
        ⟨photos.length,
         (results.map (fun r => r.updated)).sum,
         (results.map (fun r => r.skipped_has_gps)).sum,
         (results.map (fun r => r.skipped_no_timestamp)).sum,
         (results.map (fun r => r.skipped_no_match)).sum⟩
      .completed stats (results.filterMap (fun r => r.in_range_no_match))

lemma getLast?_cons_eq_or {α : Type} (x : α) (l : List α) :
    (x :: l).getLast? = l.getLast?.or (some x) := by
  cases l with
  | nil => rfl
  | cons y ys =>
      rw [List.getLast?_cons_cons]
      cases hgl : (y :: ys).getLast? with
      | none =>
          exfalso
          have : (y :: ys).getLast?.isSome := List.getLast?_isSome.mpr (by simp)
          rw [hgl] at this
          simp at this
      | some z => simp

lemma or_or_right {α : Type} (o : Option α) (x : α) (b : Option α) :
    (o.or (some x)).or b = o.or (some x) := by
  cases o <;> simp

/-- The scanning loop computes the last element of the `≤ t` prefix (else
the accumulator) and the head of the remainder. -/
lemma findBeforeAfter_eq (l : List GPSTrackPoint) (t : ℚ)
    (b : Option GPSTrackPoint) :
    findBeforeAfter l t b =
      ((l.takeWhile (fun x => decide (x.timestamp ≤ t))).getLast?.or b,
       (l.dropWhile (fun x => decide (x.timestamp ≤ t))).head?) := by
  induction l generalizing b with
  | nil => simp [findBeforeAfter]
  | cons x xs ih =>
      by_cases hx : x.timestamp ≤ t
      · rw [show findBeforeAfter (x :: xs) t b = findBeforeAfter xs t (some x) by
          simp [findBeforeAfter, hx]]
        rw [ih]
        have htw : (x :: xs).takeWhile (fun y => decide (y.timestamp ≤ t))
            = x :: xs.takeWhile (fun y => decide (y.timestamp ≤ t)) := by
          simp [List.takeWhile_cons, hx]
        have hdw : (x :: xs).dropWhile (fun y => decide (y.timestamp ≤ t))
            = xs.dropWhile (fun y => decide (y.timestamp ≤ t)) := by
          simp [List.dropWhile_cons, hx]
        rw [htw, hdw, getLast?_cons_eq_or, or_or_right]
      · rw [show findBeforeAfter (x :: xs) t b = (b, some x) by
          simp [findBeforeAfter, hx]]
        have htw : (x :: xs).takeWhile (fun y => decide (y.timestamp ≤ t)) = [] := by
          simp [List.takeWhile_cons, hx]
        have hdw : (x :: xs).dropWhile (fun y => decide (y.timestamp ≤ t))
            = x :: xs := by
          simp [List.dropWhile_cons, hx]
        rw [htw, hdw]
        simp

/-- On a prefix of points at or before `t` followed by `p` (at or before
`t`) and `q` (after `t`), the scan returns `before = p`, `after = q`. -/
lemma findBeforeAfter_split (l1 : List GPSTrackPoint) (p q : GPSTrackPoint)
    (l2 : List GPSTrackPoint) (t : ℚ) (b : Option GPSTrackPoint)
    (h1 : ∀ x ∈ l1, x.timestamp ≤ t) (hp : p.timestamp ≤ t)
    (hq : ¬ q.timestamp ≤ t) :
    findBeforeAfter (l1 ++ p :: q :: l2) t b = (some p, some q) := by
  induction l1 generalizing b with
  | nil => simp [findBeforeAfter, hp, hq]
  | cons x xs ih =>
      have hx : x.timestamp ≤ t := h1 x (by simp)
      simpa [findBeforeAfter, hx] using
        ih (some x) (fun y hy => h1 y (List.mem_cons_of_mem x hy))

/-- In a `Pairwise R` list, every element is the last one or relates to it. -/
lemma pairwise_rel_getLast {α : Type} {R : α → α → Prop} :
    ∀ (l : List α) (h : l ≠ []), List.Pairwise R l →
      ∀ x ∈ l, x = l.getLast h ∨ R x (l.getLast h)
  | [], h, _, _, hx => absurd rfl h
  | [a], _, _, x, hx => by
      simp at hx
      subst hx
      left
      rfl
  | a :: b :: l, _, hp, x, hx => by
      rw [List.getLast_cons (by simp)]
      rcases List.mem_cons.mp hx with rfl | hx2
      · right
        exact (List.pairwise_cons.mp hp).1 _ (List.getLast_mem (by simp))
      · exact pairwise_rel_getLast (b :: l) (by simp)
          (List.pairwise_cons.mp hp).2 x hx2

/-- When every point is at or before `t`, the scan yields the last point as
`before` and no `after`. -/
lemma findBeforeAfter_all_le (l : List GPSTrackPoint) (h : l ≠ []) (t : ℚ)
    (hall : ∀ x ∈ l, x.timestamp ≤ t) :
    findBeforeAfter l t none = (some (l.getLast h), none) := by
  rw [findBeforeAfter_eq]
  have hdw : l.dropWhile (fun x => decide (x.timestamp ≤ t)) = [] :=
    List.dropWhile_eq_nil_iff.mpr (fun x hx => by simp [hall x hx])
  have htw : l.takeWhile (fun x => decide (x.timestamp ≤ t)) = l := by
    have happ := List.takeWhile_append_dropWhile
      (fun x => decide (x.timestamp ≤ t)) l
    rw [hdw] at happ
    simpa using happ
  rw [htw, hdw, List.getLast?_eq_getLast l h]
  simp

lemma find_gps_eq_of_none_before (tps : List GPSTrackPoint) (h : tps ≠ [])
    (tol : ℚ) (force : Bool) (t : ℚ) (a? : Option GPSTrackPoint)
    (hfba : findBeforeAfter tps t none = (none, a?)) :
    find_gps_for_photo tps tol force t =
      if force = true ∨ (tps.head h).timestamp - t ≤ tol then
        some ((tps.head h).latitude, (tps.head h).longitude,
              (tps.head h).elevation)
      else none := by
  unfold find_gps_for_photo
  rw [dif_neg h, hfba]

lemma find_gps_eq_of_none_after (tps : List GPSTrackPoint) (h : tps ≠ [])
    (tol : ℚ) (force : Bool) (t : ℚ) (b : GPSTrackPoint)
    (hfba : findBeforeAfter tps t none = (some b, none)) :
    find_gps_for_photo tps tol force t =
      if force = true ∨ t - (tps.getLast h).timestamp ≤ tol then
        some ((tps.getLast h).latitude, (tps.getLast h).longitude,
              (tps.getLast h).elevation)
      else none := by
  unfold find_gps_for_photo
  rw [dif_neg h, hfba]

lemma find_gps_eq_of_both (tps : List GPSTrackPoint) (h : tps ≠ [])
    (tol : ℚ) (force : Bool) (t : ℚ) (b a : GPSTrackPoint)
    (hfba : findBeforeAfter tps t none = (some b, some a)) :
    find_gps_for_photo tps tol force t =
      (if force = false ∧ tol < min (t - b.timestamp) (a.timestamp - t) then
        none
      else if a.timestamp - b.timestamp = 0 then
        some (b.latitude, b.longitude, b.elevation)
      else
        some (b.latitude + (a.latitude - b.latitude) *
                ((t - b.timestamp) / (a.timestamp - b.timestamp)),
              b.longitude + (a.longitude - b.longitude) *
                ((t - b.timestamp) / (a.timestamp - b.timestamp)),
              match b.elevation, a.elevation with
              | some e1, some e2 => some (e1 + (e2 - e1) *
                  ((t - b.timestamp) / (a.timestamp - b.timestamp)))
              | _, _ => none)) := by
  unfold find_gps_for_photo
  rw [dif_neg h, hfba]

/-- C1: for a trace store with at least two trackpoints and a query
timestamp strictly between two consecutive trackpoints with distinct
timestamps, when matching does not refuse (force set, or the smaller gap
within tolerance), `find_gps_for_photo` returns
`before + (after − before) · ratio` for latitude and longitude with
`ratio = (query − before.timestamp) / (after.timestamp − before.timestamp)`,
and an elevation (same ratio) exactly when both endpoints carry one. -/
theorem C1_interior_linear_interpolation
    (l1 : List GPSTrackPoint) (p q : GPSTrackPoint) (l2 : List GPSTrackPoint)
    (maxTimeDiff t : ℚ) (force : Bool)
    (hsorted : TraceSorted (l1 ++ p :: q :: l2))
    (hpt : p.timestamp < t) (htq : t < q.timestamp)
    (haccept : force = true ∨
      min (t - p.timestamp) (q.timestamp - t) ≤ maxTimeDiff) :
    find_gps_for_photo (l1 ++ p :: q :: l2) maxTimeDiff force t =
      some (p.latitude + (q.latitude - p.latitude) *
              ((t - p.timestamp) / (q.timestamp - p.timestamp)),
            p.longitude + (q.longitude - p.longitude) *
              ((t - p.timestamp) / (q.timestamp - p.timestamp)),
            match p.elevation, q.elevation with
            | some e1, some e2 => some (e1 + (e2 - e1) *
                ((t - p.timestamp) / (q.timestamp - p.timestamp)))
            | _, _ => none) := by
  have hs : List.Pairwise (fun a b : GPSTrackPoint => a.timestamp ≤ b.timestamp)
      (l1 ++ p :: q :: l2) := hsorted
  have hne : l1 ++ p :: q :: l2 ≠ [] := by simp
  have hprefix : ∀ x ∈ l1, x.timestamp ≤ t := by
    intro x hx
    have hxp : x.timestamp ≤ p.timestamp :=
      (List.pairwise_append.mp hs).2.2 x hx p (by simp)
    linarith
  have hfba := findBeforeAfter_split l1 p q l2 t none hprefix (le_of_lt hpt)
    (not_le.mpr htq)
  rw [find_gps_eq_of_both (l1 ++ p :: q :: l2) hne maxTimeDiff force t p q hfba]
  have hrefuse : ¬ (force = false ∧
      maxTimeDiff < min (t - p.timestamp) (q.timestamp - t)) := by
    rcases haccept with hf | hmin
    · simp [hf]
    · intro hc
      exact absurd hmin (not_le.mpr hc.2)
  rw [if_neg hrefuse]
  have htotal : ¬ (q.timestamp - p.timestamp = 0) := by
    intro h0
    have : q.timestamp = p.timestamp := by linarith [sub_eq_zero.mp h0]
    linarith
  rw [if_neg htotal]

/-- Witness for C1 at a concrete store and query. -/
theorem C1_interior_linear_interpolation_witness :
    (TraceSorted [⟨0, 10, 20, some 100⟩, ⟨60, 11, 21, some 160⟩] ∧
      (0 : ℚ) < 30 ∧ (30 : ℚ) < 60 ∧
      min ((30 : ℚ) - 0) ((60 : ℚ) - 30) ≤ 600) ∧
    find_gps_for_photo [⟨0, 10, 20, some 100⟩, ⟨60, 11, 21, some 160⟩]
      600 false 30 = some (21/2, 41/2, some 130) := by
  have hsorted : TraceSorted [⟨0, 10, 20, some 100⟩, ⟨60, 11, 21, some 160⟩] := by
    constructor
    · intro b hb
      simp only [List.mem_singleton] at hb
      subst hb
      norm_num
    · simp
  refine ⟨⟨hsorted, by norm_num, by norm_num, by norm_num⟩, ?_⟩
  have h := C1_interior_linear_interpolation []
    ⟨0, 10, 20, some 100⟩ ⟨60, 11, 21, some 160⟩ [] 600 30 false
    hsorted (by norm_num) (by norm_num) (Or.inr (by norm_num))
  simp only [List.nil_append] at h
  rw [h]
  norm_num

lemma dropWhile_head_not {α : Type} (P : α → Bool) :
    ∀ (l : List α) (d : α) (rest : List α),
      l.dropWhile P = d :: rest → P d = false
  | [], d, rest => by intro h; simp [List.dropWhile] at h
  | a :: as, d, rest => by
      intro h
      by_cases ha : P a = true
      · rw [List.dropWhile_cons_of_pos ha] at h
        exact dropWhile_head_not P as d rest h
      · rw [List.dropWhile_cons_of_neg ha] at h
        cases h
        simpa using ha

/-- C2: for a query timestamp exactly equal to some trackpoint's timestamp,
matching (with a nonnegative tolerance, or forced) returns that
trackpoint's latitude and longitude exactly — the interpolation arithmetic
introduces no drift since the ratio is exactly `0`. -/
theorem C2_exact_timestamp_match (tps : List GPSTrackPoint)
    (maxTimeDiff t : ℚ) (force : Bool) (hsorted : TraceSorted tps)
    (hmem : ∃ p ∈ tps, p.timestamp = t)
    (htol : force = true ∨ 0 ≤ maxTimeDiff) :
    ∃ p ∈ tps, p.timestamp = t ∧ ∃ e,
      find_gps_for_photo tps maxTimeDiff force t =
        some (p.latitude, p.longitude, e) := by
  obtain ⟨p0, hp0mem, hp0t⟩ := hmem
  have hs : List.Pairwise
      (fun a b : GPSTrackPoint => a.timestamp ≤ b.timestamp) tps := hsorted
  have hne : tps ≠ [] := List.ne_nil_of_mem hp0mem
  set P : GPSTrackPoint → Bool := fun x => decide (x.timestamp ≤ t) with hP
  cases hdw : tps.dropWhile P with
  | nil =>
      have hall : ∀ x ∈ tps, x.timestamp ≤ t := by
        intro x hx
        have hx2 := List.dropWhile_eq_nil_iff.mp hdw x hx
        simpa [hP] using hx2
      have hlast_le : (tps.getLast hne).timestamp ≤ t :=
        hall _ (List.getLast_mem hne)
      have hlast_ge : t ≤ (tps.getLast hne).timestamp := by
        rcases pairwise_rel_getLast tps hne hs p0 hp0mem with heq | hrel
        · rw [← heq, hp0t]
        · rw [← hp0t]; exact hrel
      have hlast : (tps.getLast hne).timestamp = t :=
        le_antisymm hlast_le hlast_ge
      have hfba := findBeforeAfter_all_le tps hne t hall
      refine ⟨tps.getLast hne, List.getLast_mem hne, hlast,
        (tps.getLast hne).elevation, ?_⟩
      rw [find_gps_eq_of_none_after tps hne maxTimeDiff force t _ hfba]
      rw [if_pos]
      rcases htol with hf | h0
      · exact Or.inl hf
      · right; rw [hlast]; linarith
  | cons d dw2 =>
      have hPd : P d = false := dropWhile_head_not P tps d dw2 hdw
      have htd : t < d.timestamp := by
        have hdle : ¬ (d.timestamp ≤ t) := by simpa [hP] using hPd
        linarith [not_le.mp hdle]
      have happ : tps.takeWhile P ++ d :: dw2 = tps := by
        rw [← hdw]
        exact List.takeWhile_append_dropWhile P tps
      have hp0tw : p0 ∈ tps.takeWhile P := by
        have hp0' := hp0mem
        rw [← happ] at hp0'
        rcases List.mem_append.mp hp0' with h1 | h2
        · exact h1
        · exfalso
          rcases List.mem_cons.mp h2 with rfl | h3
          · linarith [hp0t]
          · have hdp0 : d.timestamp ≤ p0.timestamp := by
              have hs2 : List.Pairwise
                  (fun a b : GPSTrackPoint => a.timestamp ≤ b.timestamp)
                  (tps.takeWhile P ++ d :: dw2) := by rw [happ]; exact hs
              have hpdw := (List.pairwise_append.mp hs2).2.1
              exact (List.pairwise_cons.mp hpdw).1 p0 h3
            linarith [hp0t ▸ hdp0]
      have htwne : tps.takeWhile P ≠ [] := List.ne_nil_of_mem hp0tw
      have hble : ((tps.takeWhile P).getLast htwne).timestamp ≤ t := by
        have hbP := List.mem_takeWhile_imp (List.getLast_mem htwne)
        simpa [hP] using hbP
      have hbge : t ≤ ((tps.takeWhile P).getLast htwne).timestamp := by
        have hstw : List.Pairwise
            (fun a b : GPSTrackPoint => a.timestamp ≤ b.timestamp)
            (tps.takeWhile P) :=
          List.Pairwise.sublist ((List.takeWhile_prefix P).sublist) hs
        rcases pairwise_rel_getLast (tps.takeWhile P) htwne hstw p0 hp0tw with
          heq | hrel
        · rw [← heq, hp0t]
        · rw [← hp0t]; exact hrel
      have hbt : ((tps.takeWhile P).getLast htwne).timestamp = t :=
        le_antisymm hble hbge
      have hfba : findBeforeAfter tps t none =
          (some ((tps.takeWhile P).getLast htwne), some d) := by
        rw [findBeforeAfter_eq, ← hP]
        rw [List.getLast?_eq_getLast (tps.takeWhile P) htwne, hdw]
        simp
      refine ⟨(tps.takeWhile P).getLast htwne,
        (List.takeWhile_prefix P).subset (List.getLast_mem htwne), hbt, ?_⟩
      rw [find_gps_eq_of_both tps hne maxTimeDiff force t _ d hfba]
      have hgb : t - ((tps.takeWhile P).getLast htwne).timestamp = 0 := by
        rw [hbt]; ring
      have hrefuse : ¬ (force = false ∧ maxTimeDiff <
          min (t - ((tps.takeWhile P).getLast htwne).timestamp)
            (d.timestamp - t)) := by
        rcases htol with hf | h0
        · simp [hf]
        · intro hc
          have hminle : min (t - ((tps.takeWhile P).getLast htwne).timestamp)
              (d.timestamp - t) ≤ 0 := by
            rw [hgb]
            exact min_le_left 0 _
          linarith [hc.2]
      rw [if_neg hrefuse]
      have htot : ¬ (d.timestamp -
          ((tps.takeWhile P).getLast htwne).timestamp = 0) := by
        rw [hbt]
        intro h0
        have : d.timestamp = t := by linarith [sub_eq_zero.mp h0]
        linarith
      rw [if_neg htot]
      refine ⟨(match ((List.takeWhile P tps).getLast htwne).elevation,
          d.elevation with
        | some e1, some e2 => some (e1 + (e2 - e1) *
            ((t - ((List.takeWhile P tps).getLast htwne).timestamp) /
             (d.timestamp - ((List.takeWhile P tps).getLast htwne).timestamp)))
        | _, _ => none), ?_⟩
      rw [hgb]
      norm_num

/-- Witness for C2 at a concrete store and query. -/
theorem C2_exact_timestamp_match_witness :
    (TraceSorted [⟨0, 1, 2, none⟩, ⟨10, 3, 4, some 5⟩, ⟨20, 6, 7, none⟩] ∧
      (∃ p ∈ [⟨0, 1, 2, none⟩, ⟨10, 3, 4, some 5⟩,
        (⟨20, 6, 7, none⟩ : GPSTrackPoint)], p.timestamp = 10) ∧
      (0 : ℚ) ≤ 60) ∧
    (∃ p ∈ [⟨0, 1, 2, none⟩, ⟨10, 3, 4, some 5⟩,
        (⟨20, 6, 7, none⟩ : GPSTrackPoint)], p.timestamp = 10 ∧ ∃ e,
      find_gps_for_photo [⟨0, 1, 2, none⟩, ⟨10, 3, 4, some 5⟩,
        ⟨20, 6, 7, none⟩] 60 false 10 = some (p.latitude, p.longitude, e)) := by
  have hsorted : TraceSorted
      [⟨0, 1, 2, none⟩, ⟨10, 3, 4, some 5⟩, ⟨20, 6, 7, none⟩] := by
    refine List.Pairwise.cons ?_ (List.Pairwise.cons ?_
      (List.Pairwise.cons ?_ List.Pairwise.nil))
    · intro b hb
      fin_cases hb <;> norm_num
    · intro b hb
      fin_cases hb
      norm_num
    · intro b hb
      simp at hb
  have hmem : ∃ p ∈ [⟨0, 1, 2, none⟩, ⟨10, 3, 4, some 5⟩,
      (⟨20, 6, 7, none⟩ : GPSTrackPoint)], p.timestamp = 10 :=
    ⟨⟨10, 3, 4, some 5⟩, by simp, rfl⟩
  exact ⟨⟨hsorted, hmem, by norm_num⟩,
    C2_exact_timestamp_match _ 60 10 false hsorted hmem (Or.inr (by norm_num))⟩

/-- C3: for a query before the first trackpoint, matching returns the first
point's position unchanged when forced or when the gap
`first.timestamp − query` is within tolerance, and no match otherwise;
symmetrically after the last trackpoint using the last point and gap
`query − last.timestamp`. -/
theorem C3_outside_range_clamp (tps : List GPSTrackPoint) (hne : tps ≠ [])
    (maxTimeDiff t : ℚ) (force : Bool) (hsorted : TraceSorted tps) :
    (t < (tps.head hne).timestamp →
      find_gps_for_photo tps maxTimeDiff force t =
        if force = true ∨ (tps.head hne).timestamp - t ≤ maxTimeDiff then
          some ((tps.head hne).latitude, (tps.head hne).longitude,
                (tps.head hne).elevation)
        else none) ∧
    ((tps.getLast hne).timestamp < t →
      find_gps_for_photo tps maxTimeDiff force t =
        if force = true ∨ t - (tps.getLast hne).timestamp ≤ maxTimeDiff then
          some ((tps.getLast hne).latitude, (tps.getLast hne).longitude,
                (tps.getLast hne).elevation)
        else none) := by
  have hs : List.Pairwise
      (fun a b : GPSTrackPoint => a.timestamp ≤ b.timestamp) tps := hsorted
  constructor
  · intro hfirst
    obtain ⟨x, xs, rfl⟩ := List.exists_cons_of_ne_nil hne
    have hx : ¬ x.timestamp ≤ t := by
      simp only [List.head_cons] at hfirst
      linarith
    have hfba : findBeforeAfter (x :: xs) t none = (none, some x) := by
      simp [findBeforeAfter, hx]
    exact find_gps_eq_of_none_before (x :: xs) hne maxTimeDiff force t
      (some x) hfba
  · intro hlast
    have hall : ∀ x ∈ tps, x.timestamp ≤ t := by
      intro x hx
      rcases pairwise_rel_getLast tps hne hs x hx with heq | hrel
      · rw [heq]; linarith
      · linarith
    have hfba := findBeforeAfter_all_le tps hne t hall
    exact find_gps_eq_of_none_after tps hne maxTimeDiff force t _ hfba

/-- Witness for C3 at a concrete store and query before the trace. -/
theorem C3_outside_range_clamp_witness :
    ((10 : ℚ) < 100 ∧
      TraceSorted [⟨100, 5, 6, some 7⟩, ⟨200, 8, 9, none⟩]) ∧
    find_gps_for_photo [⟨100, 5, 6, some 7⟩, ⟨200, 8, 9, none⟩]
      50 false 10 = none := by
  have hsorted : TraceSorted [⟨100, 5, 6, some 7⟩, ⟨200, 8, 9, none⟩] := by
    refine List.Pairwise.cons ?_ (List.Pairwise.cons ?_ List.Pairwise.nil)
    · intro b hb
      fin_cases hb
      norm_num
    · intro b hb
      simp at hb
  refine ⟨⟨by norm_num, hsorted⟩, ?_⟩
  have hne : ([⟨100, 5, 6, some 7⟩, ⟨200, 8, 9, none⟩] :
      List GPSTrackPoint) ≠ [] := by simp
  have h := (C3_outside_range_clamp _ hne 50 10 false hsorted).1
    (by norm_num)
  rw [h, if_neg]
  norm_num

/-- Counterexample to C4 as stated: a JPEG (embedded-codec) photo whose GPS
IFD holds a latitude tag but no longitude tag.  `has_gps_data` returns
`true`, yet the claimed criterion (latitude and, for the embedded-codec
backend, also longitude) is false — in the code it is the external-tool
backend, not the embedded-codec one, that also requires longitude. -/
theorem C4_backend_mismatch_cex :
    has_gps_data (.jpeg (some ⟨[GPSLatitudeTag]⟩)) = true ∧
    ¬ hasGpsClaimedSpec (.jpeg (some ⟨[GPSLatitudeTag]⟩)) := by
  constructor
  · decide
  · intro h
    have h2 := h.2
    simp [GPSLatitudeTag, GPSLongitudeTag] at h2

/-- C4 (amended): `has_gps_data` is true iff a GPS-latitude tag is present,
with the additional longitude requirement applying to the external-tool
(RAW) backend rather than the embedded-codec one; any read error yields
false. -/
theorem C4_has_gps_data_iff (m : PhotoMeta) :
    has_gps_data m = true ↔ hasGpsAmendedSpec m := by
  cases m with
  | raw info =>
      cases info with
      | none => simp [has_gps_data, hasGpsAmendedSpec]
      | some i =>
          simp [has_gps_data, hasGpsAmendedSpec, Option.isSome_iff_exists]
  | jpeg load =>
      cases load with
      | none => simp [has_gps_data, hasGpsAmendedSpec]
      | some d =>
          simp [has_gps_data, hasGpsAmendedSpec, List.contains]

/-- Counterexample to C5 as stated: after a successful external-tool (RAW)
write on a record whose `_raw_info` cache is populated, the cache is left
intact, and a subsequent read serves the pre-write cached blob (here even
though the underlying tool would now return nothing). -/
theorem C5_raw_cache_survives_write_cex :
    write_gps_to_raw true ⟨some ⟨some 1, none, some 2, none⟩, none⟩ =
      Except.ok ⟨some ⟨some 1, none, some 2, none⟩, none⟩ ∧
    (get_raw_info none ⟨some ⟨some 1, none, some 2, none⟩, none⟩).1 =
      some ⟨some 1, none, some 2, none⟩ := by
  constructor
  · rfl
  · rfl

/-- C5 (amended): a successful write invalidates the cached metadata for
the embedded-codec (JPEG) backend — `_jpeg_exif_dict` is cleared — while a
successful external-tool (RAW) write leaves the processor's cached state,
including the `_raw_info` blob, unchanged. -/
theorem C5_cache_invalidation (file : JpegMeta) (st st2 : ProcCaches)
    (ok : Bool) (hwrite : write_gps_to_raw ok st = Except.ok st2) :
    (write_gps_to_jpg file st).jpeg_exif = none ∧ st2 = st := by
  constructor
  · rfl
  · cases hok : ok
    · rw [hok] at hwrite
      simp [write_gps_to_raw] at hwrite
    · rw [hok] at hwrite
      simp [write_gps_to_raw] at hwrite
      exact hwrite.symm

/-- Witness for C5 (amended) at a concrete cache state. -/
theorem C5_cache_invalidation_witness :
    write_gps_to_raw true ⟨some ⟨none, none, none, none⟩, some ⟨[]⟩⟩ =
      Except.ok ⟨some ⟨none, none, none, none⟩, some ⟨[]⟩⟩ ∧
    ((write_gps_to_jpg ⟨[]⟩
        ⟨some ⟨none, none, none, none⟩, some ⟨[]⟩⟩).jpeg_exif = none ∧
      (⟨some ⟨none, none, none, none⟩, some ⟨[]⟩⟩ : ProcCaches) =
        ⟨some ⟨none, none, none, none⟩, some ⟨[]⟩⟩) :=
  ⟨rfl, C5_cache_invalidation ⟨[]⟩ _ _ true rfl⟩

/-- C6: the run returns the distinguished empty-trace outcome — stopping
before any photo is processed, without crashing — exactly when the parsed
trace has zero trackpoints. -/
theorem C6_empty_trace_early_return (tps : List GPSTrackPoint)
    (photos : List PhotoRecord) (o d f : Bool) (mArg : Option ℚ) :
    process_photos tps photos o d f mArg = RunResult.emptyTrace ↔
      tps = [] := by
  constructor
  · intro h
    by_contra hne
    by_cases hp : photos = [] <;> simp [process_photos, hne, hp] at h
  · intro h
    simp [process_photos, h]

/-- Witness for C6: an empty trace with a nonempty photo list returns the
empty-trace outcome. -/
theorem C6_empty_trace_early_return_witness :
    process_photos [] [⟨"a.jpg", .jpeg none, none, true⟩]
      false false false none = RunResult.emptyTrace :=
  (C6_empty_trace_early_return [] [⟨"a.jpg", .jpeg none, none, true⟩]
    false false false none).mpr rfl

lemma positiveIntervals_eq_spec :
    ∀ (rest : List GPSTrackPoint) (p : GPSTrackPoint),
      positiveIntervals p rest = successiveDeltasSpec (p :: rest)
  | [], p => by simp [positiveIntervals, successiveDeltasSpec]
  | q :: rs, p => by
      have ih := positiveIntervals_eq_spec rs q
      by_cases hd : 0 < q.timestamp - p.timestamp
      · simp only [positiveIntervals, gt_iff_lt, if_pos hd]
        rw [ih]
        simp [successiveDeltasSpec, hd]
      · simp only [positiveIntervals, gt_iff_lt, if_neg hd]
        rw [ih]
        simp [successiveDeltasSpec, hd]

/-- C7: the interval estimator returns 300 s for fewer than two points or
when no strictly positive successive delta remains, else the arithmetic
mean of the positive successive deltas; on timestamps `[0, 100, 300]` it
returns 150. -/
theorem C7_average_interval :
    (∀ tps : List GPSTrackPoint,
      calculate_average_interval tps =
        if tps.length < 2 ∨ successiveDeltasSpec tps = [] then 300
        else (successiveDeltasSpec tps).sum / (successiveDeltasSpec tps).length) ∧
    calculate_average_interval
      [⟨0, 0, 0, none⟩, ⟨100, 0, 0, none⟩, ⟨300, 0, 0, none⟩] = 150 := by
  constructor
  · intro tps
    match tps with
    | [] => simp [calculate_average_interval, successiveDeltasSpec]
    | [p] => simp [calculate_average_interval, successiveDeltasSpec]
    | p :: q :: rs =>
        have hlen : ¬ ((p :: q :: rs).length < 2) := by
          simp [List.length_cons]
        rw [show calculate_average_interval (p :: q :: rs) =
            (if positiveIntervals p (q :: rs) = [] then 300
             else (positiveIntervals p (q :: rs)).sum /
               (positiveIntervals p (q :: rs)).length) by
          simp [calculate_average_interval, hlen]]
        rw [positiveIntervals_eq_spec]
        by_cases hsp : successiveDeltasSpec (p :: q :: rs) = []
        · rw [if_pos hsp, if_pos (Or.inr hsp)]
        · rw [if_neg hsp, if_neg (not_or.mpr ⟨hlen, hsp⟩)]
  · norm_num [calculate_average_interval, positiveIntervals]
    simp

lemma charListLe_total : ∀ as bs : List Char,
    charListLe as bs = true ∨ charListLe bs as = true
  | [], _ => Or.inl rfl
  | _ :: _, [] => Or.inr rfl
  | a :: as, b :: bs => by
      rcases Nat.lt_trichotomy a.toNat b.toNat with h | h | h
      · left
        simp [charListLe, h]
      · have h2 : ¬ a.toNat < b.toNat := by omega
        have h3 : ¬ b.toNat < a.toNat := by omega
        rcases charListLe_total as bs with hr | hr
        · left
          simp [charListLe, h2, h3, hr]
        · right
          simp [charListLe, h2, h3, hr]
      · right
        simp [charListLe, h]

lemma charListLe_trans : ∀ as bs cs : List Char,
    charListLe as bs = true → charListLe bs cs = true →
    charListLe as cs = true
  | [], _, _ => by
      intro _ _
      rfl
  | a :: as, [], cs => by
      intro h1 _
      simp [charListLe] at h1
  | a :: as, b :: bs, [] => by
      intro _ h2
      simp [charListLe] at h2
  | a :: as, b :: bs, c :: cs => by
      intro h1 h2
      by_cases hab : a.toNat < b.toNat
      · by_cases hbc : b.toNat < c.toNat
        · have hac : a.toNat < c.toNat := Nat.lt_trans hab hbc
          simp [charListLe, hac]
        · by_cases hcb : c.toNat < b.toNat
          · simp [charListLe, hbc, hcb] at h2
          · have hac : a.toNat < c.toNat := by omega
            simp [charListLe, hac]
      · by_cases hba : b.toNat < a.toNat
        · simp [charListLe, hab, hba] at h1
        · simp only [charListLe, if_neg hab, if_neg hba] at h1
          by_cases hbc : b.toNat < c.toNat
          · have hac : a.toNat < c.toNat := by omega
            simp [charListLe, hac]
          · by_cases hcb : c.toNat < b.toNat
            · simp [charListLe, hbc, hcb] at h2
            · simp only [charListLe, if_neg hbc, if_neg hcb] at h2
              have hac : ¬ a.toNat < c.toNat := by omega
              have hca : ¬ c.toNat < a.toNat := by omega
              simp only [charListLe, if_neg hac, if_neg hca]
              exact charListLe_trans as bs cs h1 h2

instance : IsTotal String (fun a b => strLeB a b = true) :=
  ⟨fun a b => charListLe_total a.data b.data⟩

instance : IsTrans String (fun a b => strLeB a b = true) :=
  ⟨fun a b c => charListLe_trans a.data b.data c.data⟩

lemma mem_globMatches (files : List String) (pat x : String) :
    x ∈ globMatches files pat ↔ x ∈ files ∧ strEndsWith x pat = true := by
  simp [globMatches, List.mem_filter]

lemma mem_globAll (files : List String) :
    ∀ (pats : List String) (x : String),
      x ∈ globAll files pats ↔
        ∃ pat ∈ pats, x ∈ files ∧ strEndsWith x pat = true
  | [], x => by simp [globAll]
  | pat :: rest, x => by
      simp [globAll, List.mem_append, mem_globMatches,
        mem_globAll files rest x]

lemma mem_variantPatterns :
    ∀ (exts : List String) (pat : String),
      pat ∈ variantPatterns exts ↔
        ∃ e ∈ exts, pat = e ∨ pat = strUpper e
  | [], pat => by simp [variantPatterns]
  | e :: rest, pat => by
      rw [variantPatterns]
      constructor
      · intro h
        rcases List.mem_cons.mp h with heq | h2
        · exact ⟨e, List.mem_cons_self e rest, Or.inl heq⟩
        rcases List.mem_cons.mp h2 with heq | h3
        · exact ⟨e, List.mem_cons_self e rest, Or.inr heq⟩
        · obtain ⟨f, hf, hor⟩ := (mem_variantPatterns rest pat).mp h3
          exact ⟨f, List.mem_cons_of_mem e hf, hor⟩
      · rintro ⟨f, hf, hor⟩
        rcases List.mem_cons.mp hf with rfl | hf2
        · rcases hor with rfl | rfl
          · exact List.mem_cons_self _ _
          · exact List.mem_cons_of_mem _ (List.mem_cons_self _ _)
        · exact List.mem_cons_of_mem _ (List.mem_cons_of_mem _
            ((mem_variantPatterns rest pat).mpr ⟨f, hf2, hor⟩))

lemma nodup_globAll (files : List String) (hnd : files.Nodup) :
    ∀ pats : List String,
      List.Pairwise (fun p q : String =>
        p.data.isSuffixOf q.data = false ∧
        q.data.isSuffixOf p.data = false) pats →
      (globAll files pats).Nodup
  | [], _ => by simp [globAll]
  | pat :: rest, hpw => by
      rw [globAll, List.nodup_append]
      obtain ⟨hhead, htail⟩ := List.pairwise_cons.mp hpw
      refine ⟨List.Nodup.filter _ hnd, nodup_globAll files hnd rest htail, ?_⟩
      intro x hx1 hx2
      obtain ⟨-, hpx⟩ := (mem_globMatches files pat x).mp hx1
      obtain ⟨q, hq, -, hqx⟩ := (mem_globAll files rest x).mp hx2
      have hps : pat.data <:+ x.data := by
        have := hpx
        rw [strEndsWith, List.isSuffixOf_iff_suffix] at this
        exact this
      have hqs : q.data <:+ x.data := by
        have := hqx
        rw [strEndsWith, List.isSuffixOf_iff_suffix] at this
        exact this
      rcases List.suffix_or_suffix_of_suffix hps hqs with hs | hs
      · have := (hhead q hq).1
        rw [← List.isSuffixOf_iff_suffix] at hs
        rw [this] at hs
        exact Bool.false_ne_true hs
      · have := (hhead q hq).2
        rw [← List.isSuffixOf_iff_suffix] at hs
        rw [this] at hs
        exact Bool.false_ne_true hs

/-- Counterexample to C8 as stated: `photo.Jpg` has a mixed-case extension
that matches the allow-list case-insensitively, yet discovery returns the
empty list — only the all-lowercase and all-uppercase variants of each
extension are globbed. -/
theorem C8_mixed_case_excluded_cex :
    matchesAllowListCI "photo.Jpg" = true ∧
    find_photos ["photo.Jpg"] = [] := by
  constructor
  · decide
  · decide

/-- C8 (amended): discovery returns a sorted, duplicate-free list, and a
file is selected iff its name ends with an allow-list extension in exactly
all-lowercase or exactly all-uppercase form (mixed-case extensions are not
selected). -/
theorem C8_discovery_sorted_unique (files : List String)
    (hnd : files.Nodup) :
    List.Sorted (fun a b => strLeB a b = true) (find_photos files) ∧
    (find_photos files).Nodup ∧
    (∀ f, f ∈ find_photos files ↔ f ∈ files ∧
      ∃ e ∈ SUPPORTED_EXTENSIONS,
        strEndsWith f e = true ∨ strEndsWith f (strUpper e) = true) := by
  have hpats : List.Pairwise (fun p q : String =>
      p.data.isSuffixOf q.data = false ∧
      q.data.isSuffixOf p.data = false)
      (variantPatterns SUPPORTED_EXTENSIONS) := by decide
  have hperm := List.perm_insertionSort (fun a b => strLeB a b = true)
    (globAll files (variantPatterns SUPPORTED_EXTENSIONS))
  refine ⟨?_, ?_, ?_⟩
  · rw [find_photos]
    exact List.sorted_insertionSort _ _
  · rw [find_photos]
    exact (List.Perm.nodup_iff hperm).mpr
      (nodup_globAll files hnd _ hpats)
  · intro f
    rw [find_photos, List.Perm.mem_iff hperm, mem_globAll]
    constructor
    · rintro ⟨pat, hpat, hmemf, hend⟩
      obtain ⟨e, he, hor⟩ := (mem_variantPatterns _ pat).mp hpat
      refine ⟨hmemf, e, he, ?_⟩
      rcases hor with rfl | rfl
      · exact Or.inl hend
      · exact Or.inr hend
    · rintro ⟨hmemf, e, he, hor⟩
      rcases hor with hend | hend
      · exact ⟨e, (mem_variantPatterns _ e).mpr ⟨e, he, Or.inl rfl⟩,
          hmemf, hend⟩
      · exact ⟨strUpper e, (mem_variantPatterns _ _).mpr
          ⟨e, he, Or.inr rfl⟩, hmemf, hend⟩

/-- Witness for C8 (amended) on a concrete two-file listing. -/
theorem C8_discovery_sorted_unique_witness :
    (["b.JPG", "a.jpg"] : List String).Nodup ∧
    List.Sorted (fun a b => strLeB a b = true)
      (find_photos ["b.JPG", "a.jpg"]) ∧
    (find_photos ["b.JPG", "a.jpg"]).Nodup ∧
    ("a.jpg" ∈ find_photos ["b.JPG", "a.jpg"] ↔
      "a.jpg" ∈ (["b.JPG", "a.jpg"] : List String) ∧
      ∃ e ∈ SUPPORTED_EXTENSIONS,
        strEndsWith "a.jpg" e = true ∨
        strEndsWith "a.jpg" (strUpper e) = true) := by
  have hnd : (["b.JPG", "a.jpg"] : List String).Nodup := by decide
  exact ⟨hnd, (C8_discovery_sorted_unique _ hnd).1,
    (C8_discovery_sorted_unique _ hnd).2.1,
    (C8_discovery_sorted_unique _ hnd).2.2 "a.jpg"⟩

lemma process_single_photo_cases (tps : List GPSTrackPoint) (tol : ℚ)
    (f o d : Bool) (photo : PhotoRecord) :
    ((process_single_photo tps tol f o d photo).updated +
     (process_single_photo tps tol f o d photo).skipped_has_gps +
     (process_single_photo tps tol f o d photo).skipped_no_timestamp +
     (process_single_photo tps tol f o d photo).skipped_no_match = 1) ∧
    (∀ pth tq, (process_single_photo tps tol f o d photo).in_range_no_match
        = some (pth, tq) →
      (process_single_photo tps tol f o d photo).skipped_no_match = 1 ∧
      pth = photo.path ∧ photo.photoTime = some tq ∧
      find_gps_for_photo tps tol f tq = none ∧
      (tps.headD ⟨0, 0, 0, none⟩).timestamp ≤ tq ∧
      tq ≤ (tps.getLastD ⟨0, 0, 0, none⟩).timestamp) := by
  by_cases h1 : o = false ∧ has_gps_data photo.meta = true
  · simp [process_single_photo, h1]
  · cases ht : photo.photoTime with
    | none => simp [process_single_photo, h1, ht]
    | some t =>
        cases hm : find_gps_for_photo tps tol f t with
        | none =>
            have hres : process_single_photo tps tol f o d photo =
                ⟨0, 0, 0, 1,
                  if (tps.headD ⟨0, 0, 0, none⟩).timestamp ≤ t ∧
                      t ≤ (tps.getLastD ⟨0, 0, 0, none⟩).timestamp then
                    some (photo.path, t)
                  else none⟩ := by
              simp [process_single_photo, h1, ht, hm]
            rw [hres]
            refine ⟨rfl, ?_⟩
            intro pth tq hsome
            by_cases hin : (tps.headD ⟨0, 0, 0, none⟩).timestamp ≤ t ∧
                t ≤ (tps.getLastD ⟨0, 0, 0, none⟩).timestamp
            · rw [if_pos hin] at hsome
              have hpair := Option.some.inj hsome
              have hpth : photo.path = pth := congrArg Prod.fst hpair
              have htq : t = tq := congrArg Prod.snd hpair
              subst htq
              exact ⟨rfl, hpth.symm, rfl, hm, hin.1, hin.2⟩
            · rw [if_neg hin] at hsome
              exact absurd hsome (by simp)
        | some g => simp [process_single_photo, h1, ht, hm]

lemma run_counts_sum (l : List PhotoResult)
    (h : ∀ r ∈ l, r.updated + r.skipped_has_gps + r.skipped_no_timestamp +
      r.skipped_no_match = 1) :
    (l.map (fun r => r.updated)).sum +
    (l.map (fun r => r.skipped_has_gps)).sum +
    (l.map (fun r => r.skipped_no_timestamp)).sum +
    (l.map (fun r => r.skipped_no_match)).sum = l.length := by
  induction l with
  | nil => simp
  | cons r rs ih =>
      have hr := h r (List.mem_cons_self r rs)
      have ihr := ih (fun x hx => h x (List.mem_cons_of_mem r hx))
      simp only [List.map_cons, List.sum_cons, List.length_cons]
      omega

/-- C9: each processed photo yields exactly one of the four outcome kinds,
so a completed run's four per-kind counts sum to the total photo count, and
every entry of the in-range diagnostic list comes from a skipped-no-match
photo whose timestamp lies between the trace's first and last timestamps. -/
theorem C9_outcome_partition (tps : List GPSTrackPoint)
    (photos : List PhotoRecord) (o d f : Bool) (mArg : Option ℚ)
    (stats : RunStats) (lst : List (String × ℚ))
    (hrun : process_photos tps photos o d f mArg =
      RunResult.completed stats lst) :
    (∀ (tps2 : List GPSTrackPoint) (tol2 : ℚ) (f2 o2 d2 : Bool)
        (photo : PhotoRecord),
      (process_single_photo tps2 tol2 f2 o2 d2 photo).updated +
      (process_single_photo tps2 tol2 f2 o2 d2 photo).skipped_has_gps +
      (process_single_photo tps2 tol2 f2 o2 d2 photo).skipped_no_timestamp +
      (process_single_photo tps2 tol2 f2 o2 d2 photo).skipped_no_match
        = 1) ∧
    stats.total = photos.length ∧
    stats.updated + stats.skipped_has_gps + stats.skipped_no_timestamp +
      stats.skipped_no_match = stats.total ∧
    (∀ pr ∈ lst,
      (tps.headD ⟨0, 0, 0, none⟩).timestamp ≤ pr.2 ∧
      pr.2 ≤ (tps.getLastD ⟨0, 0, 0, none⟩).timestamp ∧
      ∃ photo ∈ photos, photo.path = pr.1 ∧ photo.photoTime = some pr.2 ∧
        (process_single_photo tps (runTolerance tps mArg) f o d
          photo).skipped_no_match = 1 ∧
        find_gps_for_photo tps (runTolerance tps mArg) f pr.2 = none) := by
  have hne : tps ≠ [] := by
    intro h0
    rw [h0] at hrun
    simp [process_photos] at hrun
  have hpne : photos ≠ [] := by
    intro h0
    rw [h0] at hrun
    simp [process_photos, hne] at hrun
  simp only [process_photos, if_neg hne, if_neg hpne,
    RunResult.completed.injEq] at hrun
  obtain ⟨hstats, hlst⟩ := hrun
  have hsum := run_counts_sum
    (photos.map (process_single_photo tps (runTolerance tps mArg) f o d))
    (by
      intro r hr
      obtain ⟨photo, -, rfl⟩ := List.mem_map.mp hr
      exact (process_single_photo_cases tps (runTolerance tps mArg)
        f o d photo).1)
  refine ⟨?_, ?_, ?_, ?_⟩
  · intro tps2 tol2 f2 o2 d2 photo
    exact (process_single_photo_cases tps2 tol2 f2 o2 d2 photo).1
  · rw [← hstats]
  · rw [← hstats]
    simpa using hsum
  · intro pr hpr
    rw [← hlst] at hpr
    obtain ⟨r, hrmem, hsome⟩ := List.mem_filterMap.mp hpr
    obtain ⟨photo, hphoto, rfl⟩ := List.mem_map.mp hrmem
    obtain ⟨pth, tq⟩ := pr
    have hc := (process_single_photo_cases tps (runTolerance tps mArg)
      f o d photo).2 pth tq hsome
    exact ⟨hc.2.2.2.2.1, hc.2.2.2.2.2, photo, hphoto, hc.2.1.symm,
      hc.2.2.1, hc.1, hc.2.2.2.1⟩

/-- Witness for C9: a concrete run over five photos covering all four
outcome kinds (counts 1/1/1/2 summing to 5), whose diagnostic list holds
exactly the in-range no-match photo. -/
theorem C9_outcome_partition_witness :
    process_photos [⟨0, 0, 0, none⟩, ⟨100, 1, 1, none⟩]
      [⟨"hasgps.jpg", .jpeg (some ⟨[2]⟩), some 50, true⟩,
       ⟨"notime.jpg", .jpeg (some ⟨[]⟩), none, true⟩,
       ⟨"match.jpg", .jpeg (some ⟨[]⟩), some 1, true⟩,
       ⟨"faraway.arw", .raw (some ⟨none, none, none, none⟩), some 50, false⟩,
       ⟨"outside.jpg", .jpeg (some ⟨[]⟩), some 5000, true⟩]
      false false false (some 10)
      = RunResult.completed ⟨5, 1, 1, 1, 2⟩ [("faraway.arw", 50)] ∧
    (⟨5, 1, 1, 1, 2⟩ : RunStats).total = 5 ∧
    (⟨5, 1, 1, 1, 2⟩ : RunStats).updated +
      (⟨5, 1, 1, 1, 2⟩ : RunStats).skipped_has_gps +
      (⟨5, 1, 1, 1, 2⟩ : RunStats).skipped_no_timestamp +
      (⟨5, 1, 1, 1, 2⟩ : RunStats).skipped_no_match =
        (⟨5, 1, 1, 1, 2⟩ : RunStats).total ∧
    (([⟨0, 0, 0, none⟩, ⟨100, 1, 1, none⟩] :
        List GPSTrackPoint).headD ⟨0, 0, 0, none⟩).timestamp ≤ 50 ∧
    (50 : ℚ) ≤ (([⟨0, 0, 0, none⟩, ⟨100, 1, 1, none⟩] :
        List GPSTrackPoint).getLastD ⟨0, 0, 0, none⟩).timestamp ∧
    find_gps_for_photo [⟨0, 0, 0, none⟩, ⟨100, 1, 1, none⟩]
      (runTolerance [⟨0, 0, 0, none⟩, ⟨100, 1, 1, none⟩] (some 10))
      false 50 = none := by
  have hA : process_single_photo [⟨0, 0, 0, none⟩, ⟨100, 1, 1, none⟩] 10
      false false false ⟨"hasgps.jpg", .jpeg (some ⟨[2]⟩), some 50, true⟩
      = ⟨0, 1, 0, 0, none⟩ := by
    norm_num [process_single_photo, has_gps_data, GPSLatitudeTag]
  have hB : process_single_photo [⟨0, 0, 0, none⟩, ⟨100, 1, 1, none⟩] 10
      false false false ⟨"notime.jpg", .jpeg (some ⟨[]⟩), none, true⟩
      = ⟨0, 0, 1, 0, none⟩ := by
    norm_num [process_single_photo, has_gps_data]
  have hC : process_single_photo [⟨0, 0, 0, none⟩, ⟨100, 1, 1, none⟩] 10
      false false false ⟨"match.jpg", .jpeg (some ⟨[]⟩), some 1, true⟩
      = ⟨1, 0, 0, 0, none⟩ := by
    norm_num [process_single_photo, has_gps_data, find_gps_for_photo,
      findBeforeAfter, write_gps_data, attempt_write, PhotoMeta.isRaw]
    rw [if_neg (by simp : ¬([⟨0, 0, 0, none⟩, ⟨100, 1, 1, none⟩] :
      List GPSTrackPoint) = [])]
  have hD : process_single_photo [⟨0, 0, 0, none⟩, ⟨100, 1, 1, none⟩] 10
      false false false
      ⟨"faraway.arw", .raw (some ⟨none, none, none, none⟩), some 50, false⟩
      = ⟨0, 0, 0, 1, some ("faraway.arw", 50)⟩ := by
    norm_num [process_single_photo, has_gps_data, find_gps_for_photo,
      findBeforeAfter, pyOr]
  have hE : process_single_photo [⟨0, 0, 0, none⟩, ⟨100, 1, 1, none⟩] 10
      false false false ⟨"outside.jpg", .jpeg (some ⟨[]⟩), some 5000, true⟩
      = ⟨0, 0, 0, 1, none⟩ := by
    norm_num [process_single_photo, has_gps_data, find_gps_for_photo,
      findBeforeAfter]
  have hrun : process_photos [⟨0, 0, 0, none⟩, ⟨100, 1, 1, none⟩]
      [⟨"hasgps.jpg", .jpeg (some ⟨[2]⟩), some 50, true⟩,
       ⟨"notime.jpg", .jpeg (some ⟨[]⟩), none, true⟩,
       ⟨"match.jpg", .jpeg (some ⟨[]⟩), some 1, true⟩,
       ⟨"faraway.arw", .raw (some ⟨none, none, none, none⟩), some 50, false⟩,
       ⟨"outside.jpg", .jpeg (some ⟨[]⟩), some 5000, true⟩]
      false false false (some 10)
      = RunResult.completed ⟨5, 1, 1, 1, 2⟩ [("faraway.arw", 50)] := by
    simp [process_photos, runTolerance, hA, hB, hC, hD, hE]
  have hmain := C9_outcome_partition _ _ false false false (some 10) _ _ hrun
  have hlist := hmain.2.2.2 ("faraway.arw", 50) (by simp)
  obtain ⟨-, -, -, -, -, hfind⟩ := hlist.2.2
  exact ⟨hrun, by simp [hmain.2.1], hmain.2.2.1,
    hlist.1, hlist.2.1, hfind⟩

/-- C10: when matching succeeds, the per-photo outcome is `updated`
regardless of whether the underlying metadata write succeeds — the result
does not depend on the write backend's success, the photo is counted as
updated, and a failing backend write (e.g. a non-zero ExifTool exit, which
`attempt_write` raises) is caught inside `write_gps_data` and converted to
a normal `failed` return rather than an escaping exception. -/
theorem C10_updated_regardless_of_write_result (tps : List GPSTrackPoint)
    (tol : ℚ) (f o d : Bool) (photo : PhotoRecord) (b1 b2 : Bool) (t : ℚ)
    (g : ℚ × ℚ × Option ℚ)
    (hgps : o = true ∨ has_gps_data photo.meta = false)
    (ht : photo.photoTime = some t)
    (hm : find_gps_for_photo tps tol f t = some g) :
    process_single_photo tps tol f o d { photo with writeOk := b1 } =
      process_single_photo tps tol f o d { photo with writeOk := b2 } ∧
    process_single_photo tps tol f o d photo = ⟨1, 0, 0, 0, none⟩ ∧
    write_gps_data true false false = WriteOutcome.failed := by
  have hnot : ¬ (o = false ∧ has_gps_data photo.meta = true) := by
    rcases hgps with h | h
    · intro hc
      rw [h] at hc
      exact absurd hc.1 (by simp)
    · intro hc
      rw [h] at hc
      exact absurd hc.2 (by simp)
  refine ⟨?_, ?_, rfl⟩
  · simp [process_single_photo, hnot, ht, hm]
  · simp [process_single_photo, hnot, ht, hm]

/-- Witness for C10: a RAW photo whose backend write would fail
(`writeOk = false`) is still counted as updated, identically to one whose
write would succeed. -/
theorem C10_updated_regardless_of_write_result_witness :
    (has_gps_data (.raw (some ⟨none, none, none, none⟩)) = false ∧
     find_gps_for_photo [⟨0, 0, 0, none⟩, ⟨100, 1, 1, none⟩] 10 false 1 =
       some (1/100, 1/100, none)) ∧
    (process_single_photo [⟨0, 0, 0, none⟩, ⟨100, 1, 1, none⟩] 10
        false false false
        ⟨"x.arw", .raw (some ⟨none, none, none, none⟩), some 1, true⟩ =
      process_single_photo [⟨0, 0, 0, none⟩, ⟨100, 1, 1, none⟩] 10
        false false false
        ⟨"x.arw", .raw (some ⟨none, none, none, none⟩), some 1, false⟩ ∧
      process_single_photo [⟨0, 0, 0, none⟩, ⟨100, 1, 1, none⟩] 10
        false false false
        ⟨"x.arw", .raw (some ⟨none, none, none, none⟩), some 1, false⟩ =
        ⟨1, 0, 0, 0, none⟩ ∧
      write_gps_data true false false = WriteOutcome.failed) := by
  have hgps : has_gps_data (.raw (some ⟨none, none, none, none⟩)) = false :=
    rfl
  have hm : find_gps_for_photo [⟨0, 0, 0, none⟩, ⟨100, 1, 1, none⟩]
      10 false 1 = some (1/100, 1/100, none) := by
    norm_num [find_gps_for_photo, findBeforeAfter]
    intro hcontra
    simp at hcontra
  exact ⟨⟨hgps, hm⟩,
    C10_updated_regardless_of_write_result
      [⟨0, 0, 0, none⟩, ⟨100, 1, 1, none⟩] 10 false false false
      ⟨"x.arw", .raw (some ⟨none, none, none, none⟩), some 1, false⟩
      true false 1 (1/100, 1/100, none) (Or.inr hgps) rfl hm⟩
